import Mathlib

/-!
Verification of the clone-cache / retrying-git-execution subsystem of
`run-bitcoin-tests` (`src/run_bitcoin_tests/network_utils.py`), as a shallow
embedding in Lean 4.

Conventions of the embedding:
* Python strings are `String` / `List Char`; captured process text is `List Char`.
* Python floats (`time.time()`, `max_cache_size_gb`, sizes in GB) are modelled
  exactly as rationals `ℚ`; machine integers are `Nat` / `Int`.
* Filesystem and subprocess effects are passed in explicitly: the outcome of
  each subprocess invocation is a function `Nat → AttemptOutcome` (outcome of
  the i-th attempt), filesystem facts are record fields, and mutation is
  explicit state passing.  Exceptions are modelled as values.
* Logging and colored console output are presentation-only and are elided.
-/

/-! ## Error classifier (`_is_network_error` .. `_is_disk_space_error`,
and the `if/elif` classification chain of `run_git_command_with_retry`) -/

/-- `s.lower()` on a char list (Python `str.lower`). -/
def lowerL (l : List Char) : List Char := l.map Char.toLower

/-- Python `needle in hay` substring test. -/
def containsSub (hay needle : List Char) : Bool := decide (needle <:+: hay)

/-- `any(indicator.lower() in error_msg.lower() for indicator in indicators)`. -/
def matchesAnyIndicator (inds : List String) (error_msg : List Char) : Bool :=
  inds.any (fun ind => containsSub (lowerL error_msg) (lowerL ind.data))

/-- Keyword list of `_is_network_error` (network_utils.py:584). -/
def network_indicators : List String :=
  ["network is unreachable", "connection refused", "connection timed out",
   "connection reset", "no route to host", "temporary failure in name resolution",
   "could not resolve host", "failed to connect", "network error",
   "transfer closed with", "the remote end hung up unexpectedly"]

/-- Keyword list of `_is_ssl_error` (network_utils.py:602). -/
def ssl_indicators : List String :=
  ["ssl certificate", "ssl verification", "tls", "certificate verify failed",
   "self signed certificate", "certificate has expired",
   "unable to verify the first certificate"]

/-- Keyword list of `_is_authentication_error` (network_utils.py:616). -/
def auth_indicators : List String :=
  ["authentication failed", "permission denied", "access denied",
   "not authorized", "invalid credentials", "repository not found",
   "does not exist", "remote: invalid username or password"]

/-- Keyword list of `_is_repository_error` (network_utils.py:631). -/
def repo_indicators : List String :=
  ["repository not found", "does not exist", "remote: repository not found",
   "remote: access denied", "remote: permission to",
   "remote: the repository you are trying to access does not exist",
   "fatal: remote error:", "fatal: could not read from remote repository"]

/-- Keyword list of `_is_disk_space_error` (network_utils.py:645). -/
def disk_indicators : List String :=
  ["no space left on device", "disk full", "insufficient disk space",
   "out of disk space", "disk quota exceeded"]

/-- `_is_network_error` (network_utils.py:582). -/
def _is_network_error (error_msg : List Char) : Bool :=
  matchesAnyIndicator network_indicators error_msg

/-- `_is_ssl_error` (network_utils.py:600). -/
def _is_ssl_error (error_msg : List Char) : Bool :=
  matchesAnyIndicator ssl_indicators error_msg

/-- `_is_authentication_error` (network_utils.py:614). -/
def _is_authentication_error (error_msg : List Char) : Bool :=
  matchesAnyIndicator auth_indicators error_msg

/-- `_is_repository_error` (network_utils.py:629). -/
def _is_repository_error (error_msg : List Char) : Bool :=
  matchesAnyIndicator repo_indicators error_msg

/-- `_is_disk_space_error` (network_utils.py:644). -/
def _is_disk_space_error (error_msg : List Char) : Bool :=
  matchesAnyIndicator disk_indicators error_msg

/-- The error categories assigned by the classification chain in
`run_git_command_with_retry` (network_utils.py:499-545). -/
inductive ErrorCategory where
  | SSL
  | DiskSpace
  | Repository
  | Authentication
  | Network
  | Generic
  deriving DecidableEq, Repr

/-- The classification chain of `run_git_command_with_retry`
(network_utils.py:501-530): the `_is_*` predicates evaluated in source order,
first match wins, `Generic` as fallback. -/
def classifyError (error_msg : List Char) : ErrorCategory :=
  if _is_ssl_error error_msg then .SSL
  else if _is_disk_space_error error_msg then .DiskSpace
  else if _is_repository_error error_msg then .Repository
  else if _is_authentication_error error_msg then .Authentication
  else if _is_network_error error_msg then .Network
  else .Generic

/-- Spec-side re-statement of the classifier (spec §4.1): a fixed precedence
table, the first category whose keyword list matches wins, `Generic` fallback.
Used only to compare against `classifyError`, which is the source translation. -/
def classifierTable : List (ErrorCategory × List String) :=
  [(.SSL, ssl_indicators), (.DiskSpace, disk_indicators),
   (.Repository, repo_indicators), (.Authentication, auth_indicators),
   (.Network, network_indicators)]

/-- Spec-side classifier: first matching row of `classifierTable`. -/
def classifySpec (error_msg : List Char) : ErrorCategory :=
  match classifierTable.find? (fun p => matchesAnyIndicator p.2 error_msg) with
  | some p => p.1
  | none => .Generic

/-! ## Retrying process runner (`run_git_command_with_retry`,
network_utils.py:443-579) -/

/-- Outcome of one `subprocess.run` invocation: either the process completed
(with return code and captured stdout/stderr) or `subprocess.TimeoutExpired`
was raised. -/
inductive AttemptOutcome where
  | completed (returncode : Int) (stdout stderr : List Char)
  | timedOut
  deriving DecidableEq, Repr

/-- The typed exceptions raised by `run_git_command_with_retry`
(network_utils.py:80-106, 502-563). -/
inductive RunError where
  | sslError (msg : List Char)
  | diskSpaceError (msg : List Char)
  | repositoryError (msg : List Char)
  | authenticationError (msg : List Char)
  | networkConnectionError (msg : List Char)
  | networkTimeoutError
  | runtimeError (msg : List Char)
  deriving DecidableEq, Repr

/-- Result of the runner: a returned `CompletedProcess` or a raised exception. -/
inductive RunOutcome where
  | success (returncode : Int) (stdout stderr : List Char)
  | failure (e : RunError)
  deriving DecidableEq, Repr

/-- Observable result of `run_git_command_with_retry`: the outcome, how many
times `subprocess.run` was invoked, and the argument of each `time.sleep`. -/
structure RunResult where
  outcome : RunOutcome
  invocations : Nat
  sleeps : List Nat
  deriving DecidableEq, Repr

/-- Python `str.strip()` (whitespace from both ends). -/
def stripL (l : List Char) : List Char :=
  ((l.dropWhile Char.isWhitespace).reverse.dropWhile Char.isWhitespace).reverse

/-- `error_msg = result.stderr.strip() or result.stdout.strip()`
(network_utils.py:497). -/
def effectiveMsg (stdout stderr : List Char) : List Char :=
  if stripL stderr = [] then stripL stdout else stripL stderr

/-- What the body of one loop iteration of `run_git_command_with_retry` does
with the subprocess outcome, before the `except` handlers are considered. -/
inductive AttemptStep where
  | returned (returncode : Int) (stdout stderr : List Char)
  | raised (e : RunError)
  | retryContinue
  | timeoutRaised
  deriving DecidableEq, Repr

/-- One iteration of the `for attempt in range(max_retries)` body
(network_utils.py:491-549), with `isLast = ¬(attempt < max_retries - 1)`:
on nonzero exit the stderr (stdout fallback) is classified; SSL / DiskSpace /
Repository / Authentication raise their typed exception; Network and Generic
sleep-and-continue while attempts remain and raise on the last attempt;
`subprocess.TimeoutExpired` propagates to its dedicated handler. -/
def attemptBody (a : AttemptOutcome) (isLast : Bool) : AttemptStep :=
  match a with
  | .timedOut => .timeoutRaised
  | .completed rc out err =>
    if rc ≠ 0 then
      let msg := effectiveMsg out err
      match classifyError msg with
      | .SSL => .raised (.sslError msg)
      | .DiskSpace => .raised (.diskSpaceError msg)
      | .Repository => .raised (.repositoryError msg)
      | .Authentication => .raised (.authenticationError msg)
      | .Network =>
        if ¬ isLast then .retryContinue else .raised (.networkConnectionError msg)
      | .Generic =>
        if ¬ isLast then .retryContinue else .raised (.runtimeError msg)
    else .returned rc out err

/-- `time.sleep(retry_delay)` followed by `continue`: one more invocation and
one more fixed-delay sleep in front of whatever the remaining attempts do. -/
def mkRetry (retry_delay : Nat) (r : RunResult) : RunResult :=
  ⟨r.outcome, r.invocations + 1, retry_delay :: r.sleeps⟩

/-- The retry loop of `run_git_command_with_retry` (network_utils.py:482-579).
`k` is the 0-based attempt index, the second argument the number of remaining
iterations (`max_retries - k`).  NOTE the faithful translation of the source
`except Exception` handler (network_utils.py:565-576): the typed permanent
errors raised inside the `try` block (SSL / DiskSpace / Repository /
Authentication) are themselves caught by that handler and retried while
attempts remain; only on the last attempt is the exception re-raised.
The zero-remaining case is the fallthrough `raise last_exception or
RuntimeError(...)` at network_utils.py:579, reachable only for
`max_retries = 0`. -/
def runLoop (a : Nat → AttemptOutcome) (retry_delay : Nat) :
    Nat → Nat → RunResult
  | _, 0 =>
    ⟨.failure (.runtimeError "Git command failed with unknown error".data), 0, []⟩
  | k, rem + 1 =>
    match attemptBody (a k) (rem == 0) with
    | .returned rc out err => ⟨.success rc out err, 1, []⟩
    | .raised e =>
      if rem == 0 then ⟨.failure e, 1, []⟩
      else mkRetry retry_delay (runLoop a retry_delay (k + 1) rem)
    | .timeoutRaised =>
      if rem == 0 then ⟨.failure .networkTimeoutError, 1, []⟩
      else mkRetry retry_delay (runLoop a retry_delay (k + 1) rem)
    | .retryContinue => mkRetry retry_delay (runLoop a retry_delay (k + 1) rem)

/-- `run_git_command_with_retry(cmd, description, max_retries, timeout,
retry_delay, cwd)` (network_utils.py:443): the command itself, its timeout and
its description only shape the per-attempt outcomes `a`, which are passed in
explicitly. -/
def run_git_command_with_retry (a : Nat → AttemptOutcome)
    (max_retries retry_delay : Nat) : RunResult :=
  runLoop a retry_delay 0 max_retries

/-! ## SHA-256 (`hashlib.sha256(...).hexdigest()`, used by
`GitCache._get_repo_hash`, network_utils.py:176-179)

The reference SHA-256 algorithm on byte lists, all words as `Nat` reduced
modulo `2 ^ 32` at each addition. -/

/-- 32-bit modular addition. -/
def add32 (x y : Nat) : Nat := (x + y) % 2 ^ 32

/-- Right-rotation of a 32-bit word. -/
def rotr32 (n x : Nat) : Nat := (x / 2 ^ n + x % 2 ^ n * 2 ^ (32 - n)) % 2 ^ 32

/-- 32-bit complement. -/
def not32 (x : Nat) : Nat := x ^^^ (2 ^ 32 - 1)

/-- SHA-256 message-schedule sigma-0. -/
def ssig0 (x : Nat) : Nat := rotr32 7 x ^^^ rotr32 18 x ^^^ x >>> 3

/-- SHA-256 message-schedule sigma-1. -/
def ssig1 (x : Nat) : Nat := rotr32 17 x ^^^ rotr32 19 x ^^^ x >>> 10

/-- SHA-256 compression Sigma-0. -/
def bsig0 (x : Nat) : Nat := rotr32 2 x ^^^ rotr32 13 x ^^^ rotr32 22 x

/-- SHA-256 compression Sigma-1. -/
def bsig1 (x : Nat) : Nat := rotr32 6 x ^^^ rotr32 11 x ^^^ rotr32 25 x

/-- SHA-256 choice function. -/
def chf (e f g : Nat) : Nat := (e &&& f) ^^^ (not32 e &&& g)

/-- SHA-256 majority function. -/
def majf (a b c : Nat) : Nat := (a &&& b) ^^^ (a &&& c) ^^^ (b &&& c)

/-- The 64 SHA-256 round constants of FIPS 180-4 (in decimal). -/
def sha256K : List Nat :=
  [1116352408, 1899447441, 3049323471, 3921009573, 961987163,
   1508970993, 2453635748, 2870763221, 3624381080, 310598401,
   607225278, 1426881987, 1925078388, 2162078206, 2614888103,
   3248222580, 3835390401, 4022224774, 264347078, 604807628,
   770255983, 1249150122, 1555081692, 1996064986, 2554220882,
   2821834349, 2952996808, 3210313671, 3336571891, 3584528711,
   113926993, 338241895, 666307205, 773529912, 1294757372,
   1396182291, 1695183700, 1986661051, 2177026350, 2456956037,
   2730485921, 2820302411, 3259730800, 3345764771, 3516065817,
   3600352804, 4094571909, 275423344, 430227734, 506948616,
   659060556, 883997877, 958139571, 1322822218, 1537002063,
   1747873779, 1955562222, 2024104815, 2227730452, 2361852424,
   2428436474, 2756734187, 3204031479, 3329325298]

/-- The eight 32-bit words of SHA-256 state. -/
structure SHAState where
  a : Nat
  b : Nat
  c : Nat
  d : Nat
  e : Nat
  f : Nat
  g : Nat
  h : Nat
  deriving DecidableEq, Repr

/-- The SHA-256 initial hash value of FIPS 180-4 (in decimal). -/
def shaInit : SHAState :=
  ⟨1779033703, 3144134277, 1013904242, 2773480762,
   1359893119, 2600822924, 528734635, 1541459225⟩

/-- Big-endian 32-bit words from a byte list (4 bytes per word). -/
def bytesToWords : List Nat → List Nat
  | b0 :: b1 :: b2 :: b3 :: rest =>
    (((b0 * 256 + b1) * 256 + b2) * 256 + b3) :: bytesToWords rest
  | _ => []

/-- Extend a 16-word block to the full 64-word message schedule: each new word
is `w[i-16] + s0(w[i-15]) + w[i-7] + s1(w[i-2])` modulo `2 ^ 32`. -/
def extendSchedule : List Nat → Nat → List Nat
  | w, 0 => w
  | w, n + 1 =>
    let nw := add32 (add32 (w.getD (w.length - 16) 0) (ssig0 (w.getD (w.length - 15) 0)))
                    (add32 (w.getD (w.length - 7) 0) (ssig1 (w.getD (w.length - 2) 0)))
    extendSchedule (w ++ [nw]) n

/-- One SHA-256 round on the working variables, consuming one `(k, w)` pair. -/
def shaRound (st : SHAState) (kw : Nat × Nat) : SHAState :=
  let t1 := add32 (add32 (add32 st.h (bsig1 st.e)) (add32 (chf st.e st.f st.g) kw.1)) kw.2
  let t2 := add32 (bsig0 st.a) (majf st.a st.b st.c)
  ⟨add32 t1 t2, st.a, st.b, st.c, add32 st.d t1, st.e, st.f, st.g⟩

/-- Compress one 64-byte chunk into the running hash state. -/
def shaCompress (st : SHAState) (chunk : List Nat) : SHAState :=
  let w := extendSchedule (bytesToWords chunk) 48
  let r := (sha256K.zip w).foldl shaRound st
  ⟨add32 st.a r.a, add32 st.b r.b, add32 st.c r.c, add32 st.d r.d,
   add32 st.e r.e, add32 st.f r.f, add32 st.g r.g, add32 st.h r.h⟩

/-- The message length in bits as 8 big-endian bytes. -/
def lenBytes8 (n : Nat) : List Nat :=
  [n / 2 ^ 56 % 256, n / 2 ^ 48 % 256, n / 2 ^ 40 % 256, n / 2 ^ 32 % 256,
   n / 2 ^ 24 % 256, n / 2 ^ 16 % 256, n / 2 ^ 8 % 256, n % 256]

/-- SHA-256 padding: `0x80`, zeros to 56 mod 64, then the 64-bit bit length. -/
def padMessage (msg : List Nat) : List Nat :=
  msg ++ 0x80 :: List.replicate ((64 - (msg.length + 9) % 64) % 64) 0
      ++ lenBytes8 (msg.length * 8)

/-- Split into 64-byte chunks (fuel recursion; each step drops 64 ≥ 1
elements, so fuel `l.length` never runs out). -/
def toChunks64Go : Nat → List Nat → List (List Nat)
  | 0, _ => []
  | fuel + 1, l => if l = [] then [] else l.take 64 :: toChunks64Go fuel (l.drop 64)

/-- Split into 64-byte chunks. -/
def toChunks64 (l : List Nat) : List (List Nat) := toChunks64Go l.length l

/-- A 32-bit word as 4 big-endian bytes. -/
def wordBytes (w : Nat) : List Nat :=
  [w / 2 ^ 24 % 256, w / 2 ^ 16 % 256, w / 2 ^ 8 % 256, w % 256]

/-- SHA-256 digest of a byte list, as its 32 bytes. -/
def sha256bytes (msg : List Nat) : List Nat :=
  let fin := (toChunks64 (padMessage msg)).foldl shaCompress shaInit
  wordBytes fin.a ++ wordBytes fin.b ++ wordBytes fin.c ++ wordBytes fin.d ++
  wordBytes fin.e ++ wordBytes fin.f ++ wordBytes fin.g ++ wordBytes fin.h

/-- UTF-8 encoding of one character (Python `str.encode()`). -/
def utf8EncodeChar (c : Char) : List Nat :=
  let n := c.toNat
  if n < 0x80 then [n]
  else if n < 0x800 then
    [0xC0 ||| n >>> 6, 0x80 ||| (n &&& 0x3F)]
  else if n < 0x10000 then
    [0xE0 ||| n >>> 12, 0x80 ||| (n >>> 6 &&& 0x3F), 0x80 ||| (n &&& 0x3F)]
  else
    [0xF0 ||| n >>> 18, 0x80 ||| (n >>> 12 &&& 0x3F), 0x80 ||| (n >>> 6 &&& 0x3F),
     0x80 ||| (n &&& 0x3F)]

/-- UTF-8 encoding of the characters of a string (Python `str.encode()`). -/
def utf8Encode (l : List Char) : List Nat := l.flatMap utf8EncodeChar

/-- Lowercase hex digit for a value below 16. -/
def hexDigit (n : Nat) : Char := "0123456789abcdef".data.getD n '0'

/-- Two lowercase hex characters of one byte (`%02x`; bytes are below 256). -/
def byteHex (b : Nat) : List Char := [hexDigit (b / 16 % 16), hexDigit (b % 16)]

/-- `hashlib.sha256(bytes).hexdigest()` as a char list. -/
def hexDigestChars (bytes : List Nat) : List Char := bytes.flatMap byteHex

/-- `GitCache._get_repo_hash` (network_utils.py:176-179):
`hashlib.sha256(f"{repo_url}@{branch}".encode()).hexdigest()[:16]`. -/
def _get_repo_hash (repo_url branch : String) : String :=
  String.mk ((hexDigestChars (sha256bytes (utf8Encode (repo_url ++ "@" ++ branch).data))).take 16)

/-! ## Git clone cache (`GitCache`, network_utils.py:108-338) -/

/-- One value of the persisted `cache_metadata.json` mapping
(network_utils.py:310-315). -/
structure CacheEntry where
  repo_url : String
  branch : String
  cached_at : ℚ
  deriving DecidableEq, Repr

/-- One directory inside `cache_dir`, as seen by `_cleanup_old_cache`
(network_utils.py:192-198): its name (the repo hash), its summed file size in
bytes, and its `stat().st_mtime`. -/
structure DirEntry where
  name : String
  sizeBytes : Nat
  mtime : ℚ
  deriving DecidableEq, Repr

/-- The mutable state of a `GitCache`: the on-disk cache directories, the
in-memory `_metadata` dict, and the contents of `cache_metadata.json` as last
written by `_save_metadata`. -/
structure CacheState where
  entries : List DirEntry
  metadata : List (String × CacheEntry)
  savedMetadata : List (String × CacheEntry)
  deriving DecidableEq, Repr

/-- Python dict read `m.get(k)` / `k in m` on the metadata mapping. -/
def lookupA : List (String × CacheEntry) → String → Option CacheEntry
  | [], _ => none
  | (k, v) :: rest, key => if k = key then some v else lookupA rest key

/-- Python `del m[k]` / `m.pop(k, None)` on the metadata mapping. -/
def eraseA : List (String × CacheEntry) → String → List (String × CacheEntry)
  | [], _ => []
  | (k, v) :: rest, key =>
    if k = key then eraseA rest key else (k, v) :: eraseA rest key

/-- Python `m[k] = v` on the metadata mapping. -/
def insertA (m : List (String × CacheEntry)) (key : String) (v : CacheEntry) :
    List (String × CacheEntry) :=
  (key, v) :: eraseA m key

/-- `GitCache._get_cache_path` (network_utils.py:181-183):
`self.cache_dir / repo_hash`. -/
def _get_cache_path (cache_dir repo_hash : String) : String :=
  cache_dir ++ "/" ++ repo_hash

/-- Outcome of the bounded `git show-ref --verify --quiet refs/heads/<branch>`
subprocess run by `get_cached_repo` (network_utils.py:264-277). -/
inductive RefCheckOutcome where
  | ok
  | nonzero
  | timedOut
  | gitNotFound
  deriving DecidableEq, Repr

/-- The filesystem / subprocess facts `get_cached_repo` consults, keyed by the
repo hash: whether `cache_dir/<hash>` exists, whether it contains a `.git`
marker, and how the branch ref check turns out. -/
structure CacheFS where
  pathExists : String → Bool
  hasGitMarker : String → Bool
  refCheck : String → RefCheckOutcome

/-- `GitCache.get_cached_repo` (network_utils.py:233-279): returns the cached
path when the metadata has the key and the entry verifies (directory exists,
`.git` marker present, branch ref check exits 0).  A failed verification
deletes the stale metadata entry and saves metadata before returning `None`;
a `TimeoutExpired` / `FileNotFoundError` from the ref check returns `None`
without touching metadata. -/
def get_cached_repo (fs : CacheFS) (cache_dir : String) (st : CacheState)
    (repo_url branch : String) : Option String × CacheState :=
  let repo_hash := _get_repo_hash repo_url branch
  let cache_path := _get_cache_path cache_dir repo_hash
  match lookupA st.metadata repo_hash with
  | none => (none, st)
  | some _ =>
    if fs.pathExists repo_hash = false then
      let m := eraseA st.metadata repo_hash
      (none, { st with metadata := m, savedMetadata := m })
    else if fs.hasGitMarker repo_hash = false then
      let m := eraseA st.metadata repo_hash
      (none, { st with metadata := m, savedMetadata := m })
    else
      match fs.refCheck repo_hash with
      | .nonzero =>
        let m := eraseA st.metadata repo_hash
        (none, { st with metadata := m, savedMetadata := m })
      | .timedOut => (none, st)
      | .gitNotFound => (none, st)
      | .ok => (some cache_path, st)

/-- Bytes to gigabytes: `size / (1024**3)` (network_utils.py:203). -/
def bytesToGB (n : Nat) : ℚ := (n : ℚ) / 1024 ^ 3

/-- Total size of all cache directories in bytes (network_utils.py:192-197). -/
def totalCacheBytes (st : CacheState) : Nat := (st.entries.map (·.sizeBytes)).sum

/-- `cache_entries.sort(key=lambda x: x[2])` (network_utils.py:207): stable
sort by `st_mtime`, oldest first. -/
def sortByMtime (l : List DirEntry) : List DirEntry :=
  l.insertionSort (fun x y => x.mtime ≤ y.mtime)

/-- The removal loop of `_cleanup_old_cache` (network_utils.py:211-226): walk
the mtime-sorted entries, stopping as soon as the running total (in GB) is at
or below the target, removing each entry walked over and subtracting its size.
Returns the removed entries. -/
def evictLoop (target : ℚ) : ℚ → List DirEntry → List DirEntry
  | _, [] => []
  | tot, e :: rest =>
    if tot ≤ target then []
    else e :: evictLoop target (tot - bytesToGB e.sizeBytes) rest

/-- `GitCache._cleanup_old_cache` (network_utils.py:185-231): if the total
cache size in GB exceeds `max_cache_size_gb`, remove directories oldest-mtime
first until the total is at or below `0.8 * max_cache_size_gb`, drop the
removed hashes from metadata, and save metadata.  Returns the new state and
the removed directory names.  (Per-entry `rmtree` failures, logged and
skipped in the source, are not modelled: removal always succeeds here.) -/
def _cleanup_old_cache (max_cache_size_gb : ℚ) (st : CacheState) :
    CacheState × List String :=
  let total_size_gb := bytesToGB (totalCacheBytes st)
  if total_size_gb > max_cache_size_gb then
    let sorted := sortByMtime st.entries
    let removed := evictLoop (max_cache_size_gb * 0.8) total_size_gb sorted
    let removedNames := removed.map (·.name)
    let m := removedNames.foldl (fun acc n => eraseA acc n) st.metadata
    ({ entries := st.entries.filter (fun e => !removedNames.contains e.name),
       metadata := m, savedMetadata := m }, removedNames)
  else (st, [])

/-! ### `cache_repo` and `shutil.copytree(..., ignore=shutil.ignore_patterns
("*.tmp", ".git/index.lock"))` (network_utils.py:281-323) -/

/-- `fnmatch.fnmatch` pattern matching (`*`, `?`, and literal characters; the
character-class syntax is not used by this code base), with a fuel parameter
for termination.  Every step consumes fuel 1 and shortens pattern + name by at
least 1, so fuel `|pattern| + |name| + 1` never runs out. -/
def fnmatchFuel : Nat → List Char → List Char → Bool
  | 0, _, _ => false
  | _ + 1, [], [] => true
  | _ + 1, [], _ :: _ => false
  | fuel + 1, '*' :: ps, [] => fnmatchFuel fuel ps []
  | fuel + 1, '*' :: ps, c :: cs =>
    fnmatchFuel fuel ps (c :: cs) || fnmatchFuel fuel ('*' :: ps) cs
  | fuel + 1, '?' :: ps, _ :: cs => fnmatchFuel fuel ps cs
  | _ + 1, '?' :: _, [] => false
  | fuel + 1, p :: ps, c :: cs => p == c && fnmatchFuel fuel ps cs
  | _ + 1, _ :: _, [] => false

/-- `fnmatch.fnmatch(name, pattern)`. -/
def fnmatchL (pattern name : List Char) : Bool :=
  fnmatchFuel (pattern.length + name.length + 1) pattern name

/-- The ignore patterns passed to `shutil.copytree` by `cache_repo`
(network_utils.py:305): `shutil.ignore_patterns("*.tmp", ".git/index.lock")`. -/
def ignorePatternsList : List String := ["*.tmp", ".git/index.lock"]

/-- `shutil.ignore_patterns` semantics: a directory ENTRY NAME is ignored iff
it fnmatches one of the patterns.  (The callback receives base names only.) -/
def ignoredName (name : String) : Bool :=
  ignorePatternsList.any (fun p => fnmatchL p.data name.data)

/-- A source tree as the list of its files, each file the list of path
components from the tree root. -/
abbrev FileTree := List (List String)

/-- `shutil.copytree` with an `ignore_patterns` callback: the recursive walk
skips any entry (file or directory, with its whole subtree) whose base name is
ignored, so a file is copied iff none of its path components is ignored. -/
def copyTreeIgnored (src : FileTree) : FileTree :=
  src.filter (fun path => !path.any ignoredName)

/-- `GitCache.cache_repo` (network_utils.py:281-323): compute the hash, run
eviction, remove any existing cache entry for the hash, copy the source tree
(ignoring `*.tmp` and `.git/index.lock` entry names), insert a fresh metadata
entry timestamped `now`, save metadata, return `True`; every exception inside
(modelled: a copy failure, `copyFails`) is caught and turns into a `False`
return with no metadata update.  Result: `(returned bool, new state, tree
written to the cache directory if any)`.  (The on-disk size and mtime of the
newly written cache directory are not tracked; no claim depends on them.) -/
def cache_repo (copyFails : Bool) (now max_cache_size_gb : ℚ) (st : CacheState)
    (repo_url branch : String) (src : FileTree) :
    Bool × CacheState × Option FileTree :=
  let repo_hash := _get_repo_hash repo_url branch
  let cleaned := (_cleanup_old_cache max_cache_size_gb st).1
  let st2 := { cleaned with
               entries := cleaned.entries.filter (fun e => e.name ≠ repo_hash) }
  if copyFails then (false, st2, none)
  else
    let stored := copyTreeIgnored src
    let m := insertA st2.metadata repo_hash
      { repo_url := repo_url, branch := branch, cached_at := now }
    (true, { st2 with metadata := m, savedMetadata := m }, some stored)

/-! ## Clone orchestrator (`clone_bitcoin_repo_enhanced`,
network_utils.py:656-831) -/

/-- The environment of one `clone_bitcoin_repo_enhanced` call: filesystem
facts, whether `target_dir` exists at the directory check, whether the
cache-to-target copy raises, and the per-attempt outcomes of the two git
commands it may run. -/
structure CloneEnv where
  fs : CacheFS
  cacheDir : String
  targetExists : Bool
  copyFromCacheRaises : Bool
  checkoutAttempts : Nat → AttemptOutcome
  cloneAttempts : Nat → AttemptOutcome
  storeCopyFails : Bool
  now : ℚ
  maxCacheSizeGB : ℚ
  clonedTree : FileTree

/-- Which collaborators a `clone_bitcoin_repo_enhanced` call invoked. -/
structure CloneTrace where
  lookupInvoked : Bool
  checkoutInvoked : Bool
  cloneInvoked : Bool
  storeInvoked : Bool
  deriving DecidableEq, Repr

/-- Result of `clone_bitcoin_repo_enhanced`: normal return or a raised error. -/
inductive CloneResult where
  | ok
  | raised (e : RunError)
  deriving DecidableEq, Repr

/-- The fresh-clone tail of `clone_bitcoin_repo_enhanced`
(network_utils.py:740-782): run the shallow clone through the retrying runner
(`max_retries=3, retry_delay=10`); on success, if caching is enabled, call
`cache_repo` whose failures are swallowed; classified errors propagate.
(The pre-clone connectivity diagnostics are informational only and elided.) -/
def cloneFreshPath (env : CloneEnv) (st : CacheState) (repo_url branch : String)
    (use_cache : Bool) (tr : CloneTrace) : CloneResult × CloneTrace × CacheState :=
  let r := run_git_command_with_retry env.cloneAttempts 3 10
  let tr2 := { tr with cloneInvoked := true }
  match r.outcome with
  | .failure e => (.raised e, tr2, st)
  | .success _ _ _ =>
    if use_cache then
      let res := cache_repo env.storeCopyFails env.now env.maxCacheSizeGB st
        repo_url branch env.clonedTree
      (.ok, { tr2 with storeInvoked := true }, res.2.1)
    else (.ok, tr2, st)

/-- The directory-exists check of `clone_bitcoin_repo_enhanced`
(network_utils.py:731-738) and what follows it: if `target_dir` exists,
return successfully at once; otherwise perform the fresh clone. -/
def dirCheckPath (env : CloneEnv) (st : CacheState) (repo_url branch : String)
    (use_cache : Bool) (targetExists : Bool) (tr : CloneTrace) :
    CloneResult × CloneTrace × CacheState :=
  if targetExists then (.ok, tr, st)
  else cloneFreshPath env st repo_url branch use_cache tr

/-- `clone_bitcoin_repo_enhanced(repo_url, branch, target_dir, use_cache)`
(network_utils.py:656-831).  With `use_cache` the cache lookup runs FIRST
(network_utils.py:694-696); on a hit the cached tree is copied over
`target_dir` and `git checkout <branch>` is run through the retrying runner,
returning on success; any failure in that path discards the partially copied
target directory and falls through.  Only then is the directory-exists
short-circuit evaluated, followed by the fresh-clone tail. -/
def clone_bitcoin_repo_enhanced (env : CloneEnv) (st : CacheState)
    (repo_url branch : String) (use_cache : Bool) :
    CloneResult × CloneTrace × CacheState :=
  if use_cache then
    let lr := get_cached_repo env.fs env.cacheDir st repo_url branch
    let tr : CloneTrace :=
      { lookupInvoked := true, checkoutInvoked := false,
        cloneInvoked := false, storeInvoked := false }
    match lr.1 with
    | some _ =>
      if env.copyFromCacheRaises then
        dirCheckPath env lr.2 repo_url branch use_cache false tr
      else
        let co := run_git_command_with_retry env.checkoutAttempts 3 5
        let tr2 := { tr with checkoutInvoked := true }
        match co.outcome with
        | .success _ _ _ => (.ok, tr2, lr.2)
        | .failure _ => dirCheckPath env lr.2 repo_url branch use_cache false tr2
    | none => dirCheckPath env lr.2 repo_url branch use_cache env.targetExists tr
  else
    dirCheckPath env st repo_url branch use_cache env.targetExists
      { lookupInvoked := false, checkoutInvoked := false,
        cloneInvoked := false, storeInvoked := false }

/-! ## Helper lemmas -/

set_option maxRecDepth 100000

/-- Looking a key up after erasing it yields nothing. -/
theorem lookupA_eraseA (m : List (String × CacheEntry)) (k : String) :
    lookupA (eraseA m k) k = none := by
  induction m with
  | nil => rfl
  | cons p rest ih =>
    obtain ⟨a, v⟩ := p
    by_cases hak : a = k
    · simp [eraseA, hak, ih]
    · simp [eraseA, lookupA, hak, ih]

/-- The defining equation of `runLoop` for a positive iteration count. -/
theorem runLoop_succ (a : Nat → AttemptOutcome) (d k rem : Nat) :
    runLoop a d k (rem + 1) =
      match attemptBody (a k) (rem == 0) with
      | .returned rc out err => ⟨.success rc out err, 1, []⟩
      | .raised e =>
        if rem == 0 then ⟨.failure e, 1, []⟩
        else mkRetry d (runLoop a d (k + 1) rem)
      | .timeoutRaised =>
        if rem == 0 then ⟨.failure .networkTimeoutError, 1, []⟩
        else mkRetry d (runLoop a d (k + 1) rem)
      | .retryContinue => mkRetry d (runLoop a d (k + 1) rem) := rfl

/-! ## C10 -/

/-- C10: distinct (url, branch) pairs can receive the same repoHash, because
the key hashes the single string `url + "@" + branch`: `("a@b", "c")` and
`("a", "b@c")` both encode to `"a@b@c"`; consequently a cache lookup for
`("a", "b@c")` returns the cache path of the entry stored for `("a@b", "c")`. -/
theorem c10_url_branch_aliasing :
    (("a@b", "c") ≠ (("a", "b@c") : String × String)) ∧
    _get_repo_hash "a@b" "c" = _get_repo_hash "a" "b@c" ∧
    (get_cached_repo ⟨fun _ => true, fun _ => true, fun _ => .ok⟩ "cache"
        ⟨[], [(_get_repo_hash "a@b" "c", ⟨"a@b", "c", 0⟩)],
         [(_get_repo_hash "a@b" "c", ⟨"a@b", "c", 0⟩)]⟩ "a" "b@c").1 =
      some (_get_cache_path "cache" (_get_repo_hash "a@b" "c")) := by
  have hq : _get_repo_hash "a@b" "c" = _get_repo_hash "a" "b@c" := by
    unfold _get_repo_hash
    rw [show ("a@b" ++ "@" ++ "c" : String) = "a" ++ "@" ++ "b@c" from rfl]
  refine ⟨by decide, hq, ?_⟩
  rw [hq]
  simp [get_cached_repo, lookupA]

/-! ## C1 -/

/-- C1: contrary to the claim, a process whose stderr matches an
Authentication pattern does NOT fail after 1 attempt: with `max_retries = 3`
the raised `AuthenticationError` is caught by the `except Exception` handler,
the runner sleeps and retries, the executor runs 3 times, and only then is
`AuthenticationError` raised.  This theorem evaluates the translated runner at
that failing input. -/
theorem c1_auth_failure_is_retried :
    run_git_command_with_retry
        (fun _ => .completed 128 [] "Authentication failed".data) 3 5 =
      ⟨.failure (.authenticationError "Authentication failed".data), 3, [5, 5]⟩ := by
  decide

/-! ## C8 -/

/-- C8: the lock-file exclusion of `cache_repo` is ineffective.  The ignore
pattern `".git/index.lock"` is matched by `fnmatch` against directory ENTRY
NAMES, which never contain a slash, so the callback never ignores the lock
file: storing a tree containing `.git/index.lock` copies the lock file into
the cache (while `*.tmp` is correctly excluded). -/
theorem c8_lockfile_copied :
    (cache_repo false 0 10 ⟨[], [], []⟩ "https://github.com/test/repo" "main"
        [[".git", "index.lock"], [".git", "HEAD"], ["work.tmp"], ["README.md"]]).2.2 =
      some [[".git", "index.lock"], [".git", "HEAD"], ["README.md"]] := by
  decide

/-! ## C4 -/

/-- C4: a `get_cached_repo` lookup whose metadata contains the key but whose
verification fails — missing cache directory, missing `.git` marker, or a
branch ref check exiting nonzero — returns none, removes the stale metadata
entry, and persists the updated metadata before returning. -/
theorem c4_lookup_self_healing (fs : CacheFS) (cache_dir : String)
    (st : CacheState) (repo_url branch : String)
    (hmem : (lookupA st.metadata (_get_repo_hash repo_url branch)).isSome = true)
    (hfail : fs.pathExists (_get_repo_hash repo_url branch) = false ∨
             fs.hasGitMarker (_get_repo_hash repo_url branch) = false ∨
             fs.refCheck (_get_repo_hash repo_url branch) = .nonzero) :
    (get_cached_repo fs cache_dir st repo_url branch).1 = none ∧
    lookupA (get_cached_repo fs cache_dir st repo_url branch).2.metadata
      (_get_repo_hash repo_url branch) = none ∧
    (get_cached_repo fs cache_dir st repo_url branch).2.savedMetadata =
      (get_cached_repo fs cache_dir st repo_url branch).2.metadata := by
  obtain ⟨e, he⟩ := Option.isSome_iff_exists.mp hmem
  cases hpe : fs.pathExists (_get_repo_hash repo_url branch) with
  | false => simp [get_cached_repo, he, hpe, lookupA_eraseA]
  | true =>
    cases hgm : fs.hasGitMarker (_get_repo_hash repo_url branch) with
    | false => simp [get_cached_repo, he, hpe, hgm, lookupA_eraseA]
    | true =>
      cases hrc : fs.refCheck (_get_repo_hash repo_url branch) with
      | nonzero => simp [get_cached_repo, he, hpe, hgm, hrc, lookupA_eraseA]
      | ok => simp [hpe, hgm, hrc] at hfail
      | timedOut => simp [hpe, hgm, hrc] at hfail
      | gitNotFound => simp [hpe, hgm, hrc] at hfail

/-- C4 witness: a concrete cached entry whose `.git` marker is gone is
invalidated by the next lookup. -/
theorem c4_lookup_self_healing_witness :
    (get_cached_repo ⟨fun _ => true, fun _ => false, fun _ => .ok⟩ "cache"
        ⟨[], [(_get_repo_hash "u" "b", ⟨"u", "b", 0⟩)],
         [(_get_repo_hash "u" "b", ⟨"u", "b", 0⟩)]⟩ "u" "b").1 = none ∧
    lookupA (get_cached_repo ⟨fun _ => true, fun _ => false, fun _ => .ok⟩ "cache"
        ⟨[], [(_get_repo_hash "u" "b", ⟨"u", "b", 0⟩)],
         [(_get_repo_hash "u" "b", ⟨"u", "b", 0⟩)]⟩ "u" "b").2.metadata
      (_get_repo_hash "u" "b") = none ∧
    (get_cached_repo ⟨fun _ => true, fun _ => false, fun _ => .ok⟩ "cache"
        ⟨[], [(_get_repo_hash "u" "b", ⟨"u", "b", 0⟩)],
         [(_get_repo_hash "u" "b", ⟨"u", "b", 0⟩)]⟩ "u" "b").2.savedMetadata =
    (get_cached_repo ⟨fun _ => true, fun _ => false, fun _ => .ok⟩ "cache"
        ⟨[], [(_get_repo_hash "u" "b", ⟨"u", "b", 0⟩)],
         [(_get_repo_hash "u" "b", ⟨"u", "b", 0⟩)]⟩ "u" "b").2.metadata :=
  c4_lookup_self_healing _ "cache" _ "u" "b" (by simp [lookupA])
    (Or.inr (Or.inl rfl))

/-! ## C5 -/

/-- Lowercasing a whitespace character is the identity. -/
theorem char_toLower_whitespace (c : Char) (h : c.isWhitespace = true) :
    c.toLower = c := by
  simp [Char.isWhitespace] at h
  rcases h with ((rfl | rfl) | rfl) | rfl <;> decide

/-- A keyword list in which every (lowercased) keyword contains some
non-whitespace character matches no all-whitespace message. -/
theorem matchesAny_whitespace_false (inds : List String) (msg : List Char)
    (hinds : inds.all (fun ind => (lowerL ind.data).any
      (fun c => !c.isWhitespace)) = true)
    (hws : ∀ c ∈ msg, c.isWhitespace = true) :
    matchesAnyIndicator inds msg = false := by
  rw [Bool.eq_false_iff]
  intro hmatch
  simp only [matchesAnyIndicator, List.any_eq_true] at hmatch
  obtain ⟨ind, hind, hsub⟩ := hmatch
  have hinfix : lowerL ind.data <:+: lowerL msg := of_decide_eq_true hsub
  simp only [List.all_eq_true] at hinds
  obtain ⟨c, hc, hcw⟩ := by
    simpa [List.any_eq_true] using hinds ind hind
  have hcmem : c ∈ lowerL msg := hinfix.subset hc
  simp only [lowerL, List.mem_map] at hcmem
  obtain ⟨c0, hc0, rfl⟩ := hcmem
  have hw0 := hws c0 hc0
  rw [char_toLower_whitespace c0 hw0] at hcw
  simp [hw0] at hcw

/-- C5: classification of error text is a total function; it agrees with the
spec-side first-match-wins precedence table (SSL, DiskSpace, Repository,
Authentication, Network, then Generic); and empty or whitespace-only text
classifies as Generic. -/
theorem c5_classifier_precedence_and_whitespace :
    (∀ msg : List Char, classifyError msg = classifySpec msg) ∧
    (∀ msg : List Char, (∀ c ∈ msg, c.isWhitespace = true) →
      classifyError msg = .Generic) := by
  constructor
  · intro msg
    simp only [classifyError, classifySpec, classifierTable, _is_ssl_error,
      _is_disk_space_error, _is_repository_error, _is_authentication_error,
      _is_network_error]
    by_cases h1 : matchesAnyIndicator ssl_indicators msg <;>
    by_cases h2 : matchesAnyIndicator disk_indicators msg <;>
    by_cases h3 : matchesAnyIndicator repo_indicators msg <;>
    by_cases h4 : matchesAnyIndicator auth_indicators msg <;>
    by_cases h5 : matchesAnyIndicator network_indicators msg <;>
    simp [List.find?_cons_of_pos, List.find?_cons_of_neg, h1, h2, h3, h4, h5]
  · intro msg hws
    have e1 : _is_ssl_error msg = false :=
      matchesAny_whitespace_false ssl_indicators msg (by decide) hws
    have e2 : _is_disk_space_error msg = false :=
      matchesAny_whitespace_false disk_indicators msg (by decide) hws
    have e3 : _is_repository_error msg = false :=
      matchesAny_whitespace_false repo_indicators msg (by decide) hws
    have e4 : _is_authentication_error msg = false :=
      matchesAny_whitespace_false auth_indicators msg (by decide) hws
    have e5 : _is_network_error msg = false :=
      matchesAny_whitespace_false network_indicators msg (by decide) hws
    simp [classifyError, e1, e2, e3, e4, e5]

/-- C5 witness: a concrete whitespace-only message classifies as Generic, and
a concrete message matching both the Repository and Authentication lists gets
the earlier category. -/
theorem c5_classifier_witness :
    classifyError [' ', '\t', '\n'] = .Generic ∧
    classifyError "fatal: repository not found".data =
      classifySpec "fatal: repository not found".data :=
  ⟨c5_classifier_precedence_and_whitespace.2 [' ', '\t', '\n'] (by decide),
   c5_classifier_precedence_and_whitespace.1 "fatal: repository not found".data⟩

/-! ## C6 -/

/-- C6: with `maxRetries = 3`, a process failing with a Network-classified
error on the first two attempts and exiting 0 on the third returns the third
success result of the third attempt, with exactly 3 executor invocations (and the two
fixed-delay sleeps in between). -/
theorem c6_network_retry_three_attempts (a : Nat → AttemptOutcome) (d : Nat)
    (rc0 rc1 : Int) (out0 err0 out1 err1 out2 err2 : List Char)
    (h0 : a 0 = .completed rc0 out0 err0) (h0rc : rc0 ≠ 0)
    (h0c : classifyError (effectiveMsg out0 err0) = .Network)
    (h1 : a 1 = .completed rc1 out1 err1) (h1rc : rc1 ≠ 0)
    (h1c : classifyError (effectiveMsg out1 err1) = .Network)
    (h2 : a 2 = .completed 0 out2 err2) :
    run_git_command_with_retry a 3 d = ⟨.success 0 out2 err2, 3, [d, d]⟩ := by
  have e0 : runLoop a d 0 3 = mkRetry d (runLoop a d 1 2) := by
    rw [runLoop_succ a d 0 2, h0]
    simp only [attemptBody, if_pos h0rc, h0c]
    rfl
  have e1 : runLoop a d 1 2 = mkRetry d (runLoop a d 2 1) := by
    rw [runLoop_succ a d 1 1, h1]
    simp only [attemptBody, if_pos h1rc, h1c]
    rfl
  have e2 : runLoop a d 2 1 = ⟨.success 0 out2 err2, 1, []⟩ := by
    rw [runLoop_succ a d 2 0, h2]
    simp [attemptBody]
  unfold run_git_command_with_retry
  rw [e0, e1, e2]
  rfl

/-- C6 witness: a concrete trace failing twice with `connection refused` and
succeeding on the third attempt. -/
theorem c6_network_retry_witness :
    run_git_command_with_retry
        (fun k => if k < 2 then .completed 128 [] "connection refused".data
                  else .completed 0 "ok".data []) 3 5 =
      ⟨.success 0 "ok".data [], 3, [5, 5]⟩ :=
  c6_network_retry_three_attempts _ 5 128 128 [] "connection refused".data
    [] "connection refused".data "ok".data [] rfl (by decide) (by decide)
    rfl (by decide) (by decide) rfl

/-! ## C7 -/

/-- A retry step of `attemptBody` only arises while attempts remain. -/
theorem attemptBody_retryContinue_not_last (x : AttemptOutcome) (b : Bool)
    (h : attemptBody x b = .retryContinue) : b = false := by
  cases x with
  | timedOut => simp [attemptBody] at h
  | completed rc out err =>
    by_cases hrc : rc ≠ 0
    · simp only [attemptBody, if_pos hrc] at h
      cases hc : classifyError (effectiveMsg out err) <;> rw [hc] at h <;>
        cases b <;> simp_all
    · simp only [attemptBody, if_neg hrc] at h
      simp at h

/-- The runner performs at least one invocation when attempts remain. -/
theorem runLoop_invocations_pos (a : Nat → AttemptOutcome) (d k rem : Nat)
    (h : rem ≠ 0) : 1 ≤ (runLoop a d k rem).invocations := by
  cases rem with
  | zero => exact absurd rfl h
  | succ rem =>
    rw [runLoop_succ]
    cases attemptBody (a k) (rem == 0) <;> cases hb : (rem == 0) <;>
      simp [mkRetry]

/-- Prepending one fixed-delay sleep preserves the replicate shape. -/
theorem mkRetry_sleeps_replicate (d : Nat) (r : RunResult)
    (hpos : 1 ≤ r.invocations)
    (h : r.sleeps = List.replicate (r.invocations - 1) d) :
    (mkRetry d r).sleeps = List.replicate ((mkRetry d r).invocations - 1) d := by
  simp only [mkRetry, h]
  rw [show r.invocations + 1 - 1 = (r.invocations - 1) + 1 from by omega]
  rw [List.replicate_succ]

/-- Every sleep recorded by the retry loop is the fixed `retry_delay`: the
sleeps are exactly `invocations - 1` copies of it. -/
theorem runLoop_sleeps_replicate (a : Nat → AttemptOutcome) (d : Nat) :
    ∀ rem k, (runLoop a d k rem).sleeps =
      List.replicate ((runLoop a d k rem).invocations - 1) d := by
  intro rem
  induction rem with
  | zero => intro k; rfl
  | succ rem ih =>
    intro k
    rw [runLoop_succ]
    cases hb : attemptBody (a k) (rem == 0) with
    | returned rc out err => simp
    | raised e =>
      cases hz : (rem == 0) with
      | true => simp
      | false =>
        have hrem : rem ≠ 0 := by simpa using hz
        rw [if_neg (show ¬((false : Bool) = true) by simp)]
        exact mkRetry_sleeps_replicate d _
          (runLoop_invocations_pos a d (k + 1) rem hrem) (ih (k + 1))
    | timeoutRaised =>
      cases hz : (rem == 0) with
      | true => simp
      | false =>
        have hrem : rem ≠ 0 := by simpa using hz
        rw [if_neg (show ¬((false : Bool) = true) by simp)]
        exact mkRetry_sleeps_replicate d _
          (runLoop_invocations_pos a d (k + 1) rem hrem) (ih (k + 1))
    | retryContinue =>
      have hz : (rem == 0) = false := attemptBody_retryContinue_not_last _ _ hb
      have hrem : rem ≠ 0 := by simpa using hz
      exact mkRetry_sleeps_replicate d _
        (runLoop_invocations_pos a d (k + 1) rem hrem) (ih (k + 1))

/-- C7: every sleep of `run_git_command_with_retry` is exactly `retry_delay`
— one fixed-delay sleep between consecutive attempts, constant across
attempts, never exponential. -/
theorem c7_fixed_retry_delay (a : Nat → AttemptOutcome)
    (max_retries retry_delay : Nat) :
    (run_git_command_with_retry a max_retries retry_delay).sleeps =
      List.replicate
        ((run_git_command_with_retry a max_retries retry_delay).invocations - 1)
        retry_delay :=
  runLoop_sleeps_replicate a retry_delay max_retries 0

/-! ## C2 -/

/-- C2 counterexample: a second `clone_bitcoin_repo_enhanced` call with the
same arguments after a successful cached first call (`use_cache = true`,
target directory present, cache entry valid) DOES invoke the cache lookup —
the lookup runs before the directory-exists check — and in fact serves the
call from the cache (copy + `git checkout`) rather than by the
directory-exists short-circuit.  This refutes the claimed "without invoking
the cache lookup logic" for `useCache = true`. -/
theorem c2_counterexample_cache_lookup_invoked :
    ((clone_bitcoin_repo_enhanced
        ⟨⟨fun _ => true, fun _ => true, fun _ => .ok⟩, "cache", true, false,
         (fun _ => .completed 0 [] []), (fun _ => .completed 0 [] []),
         false, 0, 10, []⟩
        ⟨[], [(_get_repo_hash "r" "m", ⟨"r", "m", 0⟩)],
         [(_get_repo_hash "r" "m", ⟨"r", "m", 0⟩)]⟩
        "r" "m" true).2.1.lookupInvoked = true) ∧
    ((clone_bitcoin_repo_enhanced
        ⟨⟨fun _ => true, fun _ => true, fun _ => .ok⟩, "cache", true, false,
         (fun _ => .completed 0 [] []), (fun _ => .completed 0 [] []),
         false, 0, 10, []⟩
        ⟨[], [(_get_repo_hash "r" "m", ⟨"r", "m", 0⟩)],
         [(_get_repo_hash "r" "m", ⟨"r", "m", 0⟩)]⟩
        "r" "m" true).2.1.checkoutInvoked = true) := by
  have hrun : run_git_command_with_retry (fun _ => .completed 0 ([] : List Char) ([] : List Char)) 3 5 =
      ⟨.success 0 [] [], 1, []⟩ := by decide
  constructor <;>
    simp [clone_bitcoin_repo_enhanced, get_cached_repo, lookupA, hrun]

/-- C2 amended: the directory-exists short-circuit holds only when the cache
path is not taken: if `targetDir` exists and either `useCache` is false or the
cache lookup misses, the call returns successfully without invoking the clone
command; the cache lookup itself is invoked exactly when `useCache` is true. -/
theorem c2_dir_exists_short_circuit_amended (env : CloneEnv) (st : CacheState)
    (repo_url branch : String) (use_cache : Bool)
    (htgt : env.targetExists = true)
    (hmiss : use_cache = false ∨
      (get_cached_repo env.fs env.cacheDir st repo_url branch).1 = none) :
    (clone_bitcoin_repo_enhanced env st repo_url branch use_cache).1 = .ok ∧
    (clone_bitcoin_repo_enhanced env st repo_url branch use_cache).2.1.cloneInvoked
      = false ∧
    (clone_bitcoin_repo_enhanced env st repo_url branch use_cache).2.1.lookupInvoked
      = use_cache := by
  cases use_cache with
  | false => simp [clone_bitcoin_repo_enhanced, dirCheckPath, htgt]
  | true =>
    rcases hmiss with hmiss | hmiss
    · exact absurd hmiss (by simp)
    · simp [clone_bitcoin_repo_enhanced, hmiss, dirCheckPath, htgt]

/-- C2 amended witness: with caching disabled and `./out` present the call
returns at once without cloning. -/
theorem c2_dir_exists_witness :
    (clone_bitcoin_repo_enhanced
        ⟨⟨fun _ => true, fun _ => true, fun _ => .ok⟩, "cache", true, false,
         (fun _ => .completed 0 [] []), (fun _ => .completed 0 [] []),
         false, 0, 10, []⟩
        ⟨[], [], []⟩ "r" "m" false).1 = .ok ∧
    (clone_bitcoin_repo_enhanced
        ⟨⟨fun _ => true, fun _ => true, fun _ => .ok⟩, "cache", true, false,
         (fun _ => .completed 0 [] []), (fun _ => .completed 0 [] []),
         false, 0, 10, []⟩
        ⟨[], [], []⟩ "r" "m" false).2.1.cloneInvoked = false ∧
    (clone_bitcoin_repo_enhanced
        ⟨⟨fun _ => true, fun _ => true, fun _ => .ok⟩, "cache", true, false,
         (fun _ => .completed 0 [] []), (fun _ => .completed 0 [] []),
         false, 0, 10, []⟩
        ⟨[], [], []⟩ "r" "m" false).2.1.lookupInvoked = false :=
  c2_dir_exists_short_circuit_amended _ _ "r" "m" false rfl (Or.inl rfl)

/-! ## C3 -/

/-- Spec-side measure: the summed size, in GB, of a list of cache entries. -/
def gbOfList (l : List DirEntry) : ℚ :=
  (l.map (fun e => bytesToGB e.sizeBytes)).sum

instance : IsTotal DirEntry (fun x y => x.mtime ≤ y.mtime) :=
  ⟨fun a b => le_total a.mtime b.mtime⟩

instance : IsTrans DirEntry (fun x y => x.mtime ≤ y.mtime) :=
  ⟨fun _ _ _ hab hbc => le_trans hab hbc⟩

/-- The entries removed by the eviction loop form an initial segment of its
input list. -/
theorem evictLoop_eq_take (target : ℚ) :
    ∀ (l : List DirEntry) (tot : ℚ),
      evictLoop target tot l = l.take (evictLoop target tot l).length := by
  intro l
  induction l with
  | nil => intro tot; rfl
  | cons e rest ih =>
    intro tot
    by_cases h : tot ≤ target
    · simp [evictLoop, h]
    · simp only [evictLoop, if_neg h, List.length_cons, List.take_succ_cons]
      exact congrArg (e :: ·) (ih (tot - bytesToGB e.sizeBytes))

/-- When the eviction loop stops early, the running total is at or below the
target; otherwise it has consumed the whole list. -/
theorem evictLoop_final (target : ℚ) :
    ∀ (l : List DirEntry) (tot : ℚ),
      tot - gbOfList (evictLoop target tot l) ≤ target ∨
      evictLoop target tot l = l := by
  intro l
  induction l with
  | nil => intro tot; right; rfl
  | cons e rest ih =>
    intro tot
    by_cases h : tot ≤ target
    · left
      simp [evictLoop, h, gbOfList]
    · rcases ih (tot - bytesToGB e.sizeBytes) with hle | hall
      · left
        simp only [evictLoop, if_neg h, gbOfList, List.map_cons, List.sum_cons]
        simp only [gbOfList] at hle
        linarith
      · right
        simp [evictLoop, if_neg h, hall]

/-- Before each removal the eviction loop re-checks the target: every proper
initial segment of the removed entries still leaves the total above the
target. -/
theorem evictLoop_min (target : ℚ) :
    ∀ (l : List DirEntry) (tot : ℚ) (j : Nat),
      j < (evictLoop target tot l).length →
      target < tot - gbOfList (l.take j) := by
  intro l
  induction l with
  | nil => intro tot j hj; simp [evictLoop] at hj
  | cons e rest ih =>
    intro tot j hj
    by_cases h : tot ≤ target
    · simp [evictLoop, h] at hj
    · cases j with
      | zero =>
        simpa [gbOfList] using not_le.mp h
      | succ j =>
        simp only [evictLoop, if_neg h, List.length_cons,
          Nat.succ_lt_succ_iff] at hj
        have := ih (tot - bytesToGB e.sizeBytes) j hj
        simp only [List.take_succ_cons, gbOfList, List.map_cons, List.sum_cons]
        simp only [gbOfList] at this
        linarith

/-- The GB-sum of a list of entries is the GB value of its summed byte size. -/
theorem gbOfList_eq_bytes (l : List DirEntry) :
    gbOfList l = bytesToGB ((l.map (·.sizeBytes)).sum) := by
  induction l with
  | nil => simp [gbOfList, bytesToGB]
  | cons e rest ih =>
    simp only [gbOfList, List.map_cons, List.sum_cons, bytesToGB] at ih ⊢
    rw [ih]
    push_cast
    ring

/-- Sorting by mtime preserves the GB-sum. -/
theorem gbOfList_sortByMtime (l : List DirEntry) :
    gbOfList (sortByMtime l) = gbOfList l := by
  unfold gbOfList sortByMtime
  exact List.Perm.sum_eq (List.Perm.map _ (List.perm_insertionSort _ l))

/-- C3 amended: when the total size is at or below the cap, eviction removes
nothing and changes nothing; when it exceeds the cap, the removed entries are
an initial segment of the entries sorted oldest-MTIME-first (the directory
`st_mtime`, not the metadata `cachedAtUnixSeconds` the claim names), removal
stops exactly when the total is at or below 80% of the cap, and no proper
initial segment of the removals would have sufficed. -/
theorem c3_eviction_amended (cap : ℚ) (st : CacheState) (hcap : 0 ≤ cap) :
    (bytesToGB (totalCacheBytes st) ≤ cap → _cleanup_old_cache cap st = (st, [])) ∧
    (cap < bytesToGB (totalCacheBytes st) →
      (_cleanup_old_cache cap st).2 =
        ((sortByMtime st.entries).map (·.name)).take
          (_cleanup_old_cache cap st).2.length ∧
      List.Pairwise (fun x y => x.mtime ≤ y.mtime) (sortByMtime st.entries) ∧
      bytesToGB (totalCacheBytes st) -
        gbOfList ((sortByMtime st.entries).take
          (_cleanup_old_cache cap st).2.length) ≤ cap * 0.8 ∧
      (∀ j, j < (_cleanup_old_cache cap st).2.length →
        cap * 0.8 < bytesToGB (totalCacheBytes st) -
          gbOfList ((sortByMtime st.entries).take j))) := by
  constructor
  · intro hle
    simp [_cleanup_old_cache, not_lt.mpr hle]
  · intro hgt
    have hcond : bytesToGB (totalCacheBytes st) > cap := hgt
    have h2 : (_cleanup_old_cache cap st).2 =
        (evictLoop (cap * 0.8) (bytesToGB (totalCacheBytes st))
          (sortByMtime st.entries)).map (·.name) := by
      simp [_cleanup_old_cache, if_pos hcond]
    refine ⟨?_, ?_, ?_, ?_⟩
    · rw [h2, List.length_map]
      rw [evictLoop_eq_take (cap * 0.8) (sortByMtime st.entries)
          (bytesToGB (totalCacheBytes st))]
      simp [List.map_take]
    · exact List.sorted_insertionSort _ _
    · rw [h2, List.length_map]
      rw [← evictLoop_eq_take (cap * 0.8) (sortByMtime st.entries)
          (bytesToGB (totalCacheBytes st))]
      rcases evictLoop_final (cap * 0.8) (sortByMtime st.entries)
          (bytesToGB (totalCacheBytes st)) with hle | hall
      · exact hle
      · rw [hall, gbOfList_sortByMtime, gbOfList_eq_bytes]
        have : bytesToGB (totalCacheBytes st) -
            bytesToGB ((st.entries.map (·.sizeBytes)).sum) = 0 := by
          simp [totalCacheBytes]
        rw [this]
        positivity
    · intro j hj
      rw [h2, List.length_map] at hj
      exact evictLoop_min (cap * 0.8) (sortByMtime st.entries)
        (bytesToGB (totalCacheBytes st)) j hj

/-- C3 amended witness: an under-cap state is left untouched by eviction. -/
theorem c3_eviction_witness :
    _cleanup_old_cache 10 ⟨[⟨"h1", 2 ^ 30, 50⟩], [], []⟩ =
      (⟨[⟨"h1", 2 ^ 30, 50⟩], [], []⟩, []) :=
  (c3_eviction_amended 10 ⟨[⟨"h1", 2 ^ 30, 50⟩], [], []⟩ (by norm_num)).1
    (by norm_num [bytesToGB, totalCacheBytes])

/-- C3 counterexample: eviction order follows directory mtime, not
`cachedAtUnixSeconds`.  Two 1 GiB entries under a 1.5 GB cap: `h1` has the
older mtime but the NEWER `cached_at` (200 vs 100).  `_cleanup_old_cache`
removes exactly `h1` — not the oldest entry by `cachedAtUnixSeconds`, which is
`h2` and survives — refuting the claimed removal order. -/
theorem c3_counterexample_eviction_uses_mtime :
    (_cleanup_old_cache (3 / 2)
        ⟨[⟨"h1", 2 ^ 30, 50⟩, ⟨"h2", 2 ^ 30, 100⟩],
         [("h1", ⟨"u1", "b1", 200⟩), ("h2", ⟨"u2", "b2", 100⟩)],
         [("h1", ⟨"u1", "b1", 200⟩), ("h2", ⟨"u2", "b2", 100⟩)]⟩).2 = ["h1"] ∧
    (lookupA [("h1", ⟨"u1", "b1", 200⟩), ("h2", ⟨"u2", "b2", 100⟩)] "h2").map
      (·.cached_at) = some 100 ∧
    (lookupA [("h1", ⟨"u1", "b1", 200⟩), ("h2", ⟨"u2", "b2", 100⟩)] "h1").map
      (·.cached_at) = some 200 ∧
    (100 : ℚ) < 200 := by
  refine ⟨?_, by simp [lookupA], by simp [lookupA], by norm_num⟩
  have hsort : sortByMtime [⟨"h1", 2 ^ 30, 50⟩, ⟨"h2", 2 ^ 30, 100⟩] =
      [⟨"h1", 2 ^ 30, (50 : ℚ)⟩, ⟨"h2", 2 ^ 30, 100⟩] := by
    norm_num [sortByMtime, List.insertionSort, List.orderedInsert]
  have htot : bytesToGB (totalCacheBytes
      ⟨[⟨"h1", 2 ^ 30, 50⟩, ⟨"h2", 2 ^ 30, 100⟩],
       [("h1", ⟨"u1", "b1", 200⟩), ("h2", ⟨"u2", "b2", 100⟩)],
       [("h1", ⟨"u1", "b1", 200⟩), ("h2", ⟨"u2", "b2", 100⟩)]⟩) = 2 := by
    norm_num [bytesToGB, totalCacheBytes]
  simp only [_cleanup_old_cache, htot, hsort]
  rw [if_pos (by norm_num)]
  have hev : evictLoop ((3 / 2 : ℚ) * 0.8) 2
      [⟨"h1", 2 ^ 30, (50 : ℚ)⟩, ⟨"h2", 2 ^ 30, 100⟩] = [⟨"h1", 2 ^ 30, (50 : ℚ)⟩] := by
    rw [evictLoop, if_neg (by norm_num)]
    rw [evictLoop, if_pos (by norm_num [bytesToGB])]
  rw [hev]
  simp

/-! ## C9 -/

/-- The SHA-256 digest always has 32 bytes. -/
theorem sha256bytes_length (msg : List Nat) : (sha256bytes msg).length = 32 := by
  simp [sha256bytes, wordBytes]

/-- Every SHA-256 digest byte is below 256. -/
theorem sha256bytes_lt (msg : List Nat) : ∀ b ∈ sha256bytes msg, b < 256 := by
  intro b hb
  simp [sha256bytes, wordBytes] at hb
  omega

/-- The hex digest has two characters per byte. -/
theorem hexDigestChars_length (bytes : List Nat) :
    (hexDigestChars bytes).length = 2 * bytes.length := by
  induction bytes with
  | nil => rfl
  | cons b rest ih =>
    simp only [hexDigestChars, List.flatMap_cons, List.length_append,
      List.length_cons] at ih ⊢
    have hb : (byteHex b).length = 2 := rfl
    omega

/-- Taking `2 * k` characters of a 2-characters-per-element flat map is the
flat map of the first `k` elements. -/
theorem take_two_mul_flatMap (f : Nat → List Char) (hf : ∀ x, (f x).length = 2) :
    ∀ (l : List Nat) (k : Nat), (l.flatMap f).take (2 * k) = (l.take k).flatMap f := by
  intro l
  induction l with
  | nil => intro k; simp
  | cons x xs ih =>
    intro k
    cases k with
    | zero => simp
    | succ k =>
      obtain ⟨a, b, hab⟩ := List.length_eq_two.mp (hf x)
      rw [List.flatMap_cons, hab, List.take_succ_cons, List.flatMap_cons, hab]
      rw [show 2 * (k + 1) = 2 * k + 1 + 1 from by ring]
      simp only [List.cons_append, List.nil_append, List.take_succ_cons]
      rw [ih k]

/-- The first `n` elements of a long-enough list, written positionally. -/
theorem take_eq_finRange_getD : ∀ (n : Nat) (l : List Nat), n ≤ l.length →
    l.take n = (List.finRange n).map (fun i : Fin n => l.getD (i : Nat) 0) := by
  intro n
  induction n with
  | zero => intro l _; simp
  | succ n ih =>
    intro l hl
    cases l with
    | nil => simp at hl
    | cons x xs =>
      have h2 : (List.finRange (n + 1)).map
            (fun i : Fin (n + 1) => (x :: xs).getD (i : Nat) 0) =
          x :: (List.finRange n).map (fun i : Fin n => xs.getD (i : Nat) 0) := by
        rw [List.finRange_succ, List.map_cons, List.map_map]
        refine congrArg₂ List.cons ?_ ?_
        · simp
        · apply List.map_congr_left
          intro i _
          simp [Function.comp, Fin.val_succ, List.getD_cons_succ]
      rw [List.take_succ_cons, h2, ih xs (by simpa using hl)]

/-- `hashlib.sha256(s.encode()).hexdigest()` as a `String` (spec-side name
for stating the truncation property). -/
def sha256hex (s : String) : String :=
  String.mk (hexDigestChars (sha256bytes (utf8Encode s.data)))

/-- C9 amended: `_get_repo_hash` equals the first 16 hex characters of
`SHA256(url + "@" + branch)` and always has length 16 (determinism is
immediate: it is a pure function of its two arguments).  The injectivity
clause of the claim is refuted separately. -/
theorem c9_hash_characterization (repo_url branch : String) :
    _get_repo_hash repo_url branch =
      String.mk ((sha256hex (repo_url ++ "@" ++ branch)).data.take 16) ∧
    (_get_repo_hash repo_url branch).length = 16 := by
  refine ⟨rfl, ?_⟩
  have h1 := hexDigestChars_length
    (sha256bytes (utf8Encode (repo_url ++ "@" ++ branch).data))
  have h2 := sha256bytes_length (utf8Encode (repo_url ++ "@" ++ branch).data)
  simp only [_get_repo_hash, String.length, List.length_take]
  omega

/-- The digest bytes of `url + "@" + branch`. -/
def repoDigest (u b : String) : List Nat :=
  sha256bytes (utf8Encode (u ++ "@" ++ b).data)

/-- One truncated-digest byte, as an element of the finite type `Fin 256`. -/
def digestByte (u b : String) (i : Nat) : Fin 256 :=
  ⟨(repoDigest u b).getD i 0 % 256, Nat.mod_lt _ (by norm_num)⟩

/-- `_get_repo_hash` factors through the first 8 digest bytes: the only data
reaching the 16 truncated hex characters. -/
theorem repoHash_factor (u b : String) :
    _get_repo_hash u b = String.mk (((List.finRange 8).map
      (fun i : Fin 8 => (digestByte u b i).val)).flatMap byteHex) := by
  have h32 := sha256bytes_length (utf8Encode (u ++ "@" ++ b).data)
  have hlt := sha256bytes_lt (utf8Encode (u ++ "@" ++ b).data)
  unfold _get_repo_hash hexDigestChars
  congr 1
  rw [show (16 : Nat) = 2 * 8 from rfl]
  rw [take_two_mul_flatMap byteHex (fun x => rfl) _ 8]
  rw [take_eq_finRange_getD 8 _ (by omega)]
  congr 1
  apply List.map_congr_left
  intro i _
  have hi : (i : Nat) < (sha256bytes (utf8Encode (u ++ "@" ++ b).data)).length := by
    have h8 := i.isLt
    omega
  have hmemb : (sha256bytes (utf8Encode (u ++ "@" ++ b).data)).getD (i : Nat) 0 ∈
      sha256bytes (utf8Encode (u ++ "@" ++ b).data) := by
    rw [List.getD_eq_getElem _ _ hi]
    exact List.getElem_mem hi
  have hval := hlt _ hmemb
  simp only [digestByte, repoDigest]
  omega

set_option maxHeartbeats 2000000 in
/-- C9 counterexample: the injectivity clause is false.  For a fixed url the
branch-to-hash map factors through the finitely many functions
`Fin 8 → Fin 256` (the truncated digest), while there are infinitely many
branch strings, so two distinct branches share a repo hash. -/
theorem c9_branch_hash_collision_exists :
    ∃ b1 b2 : String, b1 ≠ b2 ∧
      _get_repo_hash "https://example.com/r.git" b1 =
      _get_repo_hash "https://example.com/r.git" b2 := by
  obtain ⟨b1, b2, hne, heq⟩ := Finite.exists_ne_map_eq_of_infinite
    (fun b : String => (fun i : Fin 8 =>
      digestByte "https://example.com/r.git" b i))
  refine ⟨b1, b2, hne, ?_⟩
  have hmap : (List.finRange 8).map (fun i : Fin 8 =>
        (digestByte "https://example.com/r.git" b1 i).val) =
      (List.finRange 8).map (fun i : Fin 8 =>
        (digestByte "https://example.com/r.git" b2 i).val) :=
    List.map_congr_left (fun i _ => congrArg Fin.val (congrFun heq i))
  rw [repoHash_factor, repoHash_factor, hmap]
